import Mathlib

/-!
Verification of the replay-protection core of the meta-transactions
repository: the keyed nonce store, the Multinonce and Bitflip consumption
strategies, the signature-binding verifier, and the RelayHub forward entry
point (from the Solidity `RelayHub` contract embedded in
`src/ts/batch/MultiSend.ts`).

The Solidity `ReplayProtection` contract itself (symbols `noncePublic`,
`bitflipPublic`, `verifyPublic`, `nonceStore`) is not present in the
repository snapshot; only its TypeScript test-suite and its caller
`RelayHub` are. The strategy and verifier operations are therefore
modelled from the specification (each such definition marked
`Modelled from the spec:`), and the test-suite's expectations are used as
cross-checks on the model.

Addresses, indices and 256-bit stored values are modelled as `Nat`;
bitwise operations use `Nat.land` / `Nat.lor`, under which 256-bit bitmap
values are closed, so no explicit modular reduction is needed for the
bitflip strategy, and the specification describes the multinonce counter
as increasing by exactly 1 per accepted consumption.
-/

/-- Reserved replay-protection authority selecting the Multinonce strategy
(`address(0)` in the contract). -/
def AuthorityZERO : Nat := 0

/-- Reserved replay-protection authority selecting the Bitflip strategy
(`address(1)` in the contract). -/
def AuthorityONE : Nat := 1

/-- Key of the persistent nonce store: `(signer, index, authority)`,
mirroring `keccak256(abi.encode(signer, index, authority))` used by the
tests to address `nonceStore` slots. -/
structure NonceStoreKey where
  signer : Nat
  index : Nat
  authority : Nat
deriving DecidableEq, Repr

/-- The persistent mapping from keys to 256-bit stored values; absent keys
read as 0 (Solidity mapping default). -/
def NonceStore : Type := NonceStoreKey → Nat

/-- `read(key) -> StoredValue`, default 0 if absent. -/
def NonceStore.read (s : NonceStore) (k : NonceStoreKey) : Nat := s k

/-- `write(key, value)`: idempotent overwrite of one slot. -/
def NonceStore.write (s : NonceStore) (k : NonceStoreKey) (v : Nat) : NonceStore :=
  fun k2 => if k2 = k then v else s k2

/-- The store in which every slot is still at its default 0. -/
def NonceStore.empty : NonceStore := fun _ => 0

/-- Error taxonomy of the replay-protection core (spec section 7); each
constructor corresponds to one revert string of the contract. -/
inductive ReplayProtectionError where
  | SignerMismatch
  | NonceOutOfOrder
  | NoBitsToFlip
  | BitAlreadyUsed
  | UnknownAuthority
deriving DecidableEq, Repr

/-- Outcome of one strategy consumption or one verification: the failure
(if any) and the resulting store. On failure the original store is
returned, matching the contract's revert semantics (a reverted call leaves
storage untouched). -/
structure VerifyResult where
  status : Option ReplayProtectionError
  store : NonceStore

/-- Modelled from the spec: `MultinonceStrategy.consume(signer, index,
submittedNonce)` of the missing `ReplayProtection.sol` (`noncePublic` /
`nonce`). Reads `current` at `(signer, index, ZERO)`, fails with
`NonceOutOfOrder` ("Multinonce replay protection failed") unless
`submittedNonce == current`, otherwise writes `current + 1`. -/
def MultinonceStrategy.consume (s : NonceStore) (signer index submittedNonce : Nat) :
    VerifyResult :=
  let key : NonceStoreKey := ⟨signer, index, AuthorityZERO⟩
  let current := s.read key
  if submittedNonce = current then
    ⟨none, s.write key (current + 1)⟩
  else
    ⟨some .NonceOutOfOrder, s⟩

/-- Modelled from the spec: `BitflipStrategy.consume(signer, index, mask)`
of the missing `ReplayProtection.sol` (`bitflipPublic` / `bitflip`). Fails
with `NoBitsToFlip` ("It must flip at least one bit!") if `mask == 0`,
fails with `BitAlreadyUsed` ("Bitflip replay protection failed") if the
mask overlaps the stored bitmap at `(signer, index, ONE)`, otherwise ORs
the mask into the bitmap. -/
def BitflipStrategy.consume (s : NonceStore) (signer index mask : Nat) :
    VerifyResult :=
  if mask = 0 then
    ⟨some .NoBitsToFlip, s⟩
  else
    let key : NonceStoreKey := ⟨signer, index, AuthorityONE⟩
    let current := s.read key
    if mask &&& current ≠ 0 then
      ⟨some .BitAlreadyUsed, s⟩
    else
      ⟨none, s.write key (current ||| mask)⟩

theorem multinonce_read_write_self (s : NonceStore) (k : NonceStoreKey) (v : Nat) :
    (s.write k v).read k = v := by
  simp [NonceStore.read, NonceStore.write]

theorem multinonce_read_write_other (s : NonceStore) (k k2 : NonceStoreKey) (v : Nat)
    (h : k2 ≠ k) : (s.write k v).read k2 = s.read k2 := by
  simp [NonceStore.read, NonceStore.write, h]

/-- C1: Multinonce consumption for key (signer, index, ZERO) is accepted
iff the submitted nonce equals the stored value; acceptance stores exactly
the old value plus 1; any other submitted value fails with
`NonceOutOfOrder` and leaves the store unchanged. Concretely, starting
from stored value 0: nonce 0 is accepted and stores 1, resubmitting
nonce 0 fails with `NonceOutOfOrder`, then nonce 1 is accepted and
stores 2. -/
theorem multinonce_iff_and_scenario (s : NonceStore) (signer index v : Nat) :
    ((MultinonceStrategy.consume s signer index v).status = none
      ↔ v = s.read ⟨signer, index, AuthorityZERO⟩)
    ∧ (MultinonceStrategy.consume s signer index v).status
        = (if v = s.read ⟨signer, index, AuthorityZERO⟩ then none
           else some .NonceOutOfOrder)
    ∧ (MultinonceStrategy.consume s signer index v).store
        = (if v = s.read ⟨signer, index, AuthorityZERO⟩ then
             s.write ⟨signer, index, AuthorityZERO⟩
               (s.read ⟨signer, index, AuthorityZERO⟩ + 1)
           else s)
    ∧ ((MultinonceStrategy.consume s signer index
          (s.read ⟨signer, index, AuthorityZERO⟩)).store).read
        ⟨signer, index, AuthorityZERO⟩
        = s.read ⟨signer, index, AuthorityZERO⟩ + 1
    ∧ (MultinonceStrategy.consume NonceStore.empty signer index 0).status = none
    ∧ ((MultinonceStrategy.consume NonceStore.empty signer index 0).store).read
        ⟨signer, index, AuthorityZERO⟩ = 1
    ∧ (MultinonceStrategy.consume
        (MultinonceStrategy.consume NonceStore.empty signer index 0).store
        signer index 0).status = some .NonceOutOfOrder
    ∧ (MultinonceStrategy.consume
        (MultinonceStrategy.consume NonceStore.empty signer index 0).store
        signer index 1).status = none
    ∧ ((MultinonceStrategy.consume
        (MultinonceStrategy.consume NonceStore.empty signer index 0).store
        signer index 1).store).read ⟨signer, index, AuthorityZERO⟩ = 2 := by
  refine ⟨?_, ?_, ?_, ?_, ?_, ?_, ?_, ?_, ?_⟩ <;>
    simp only [MultinonceStrategy.consume, NonceStore.read, NonceStore.write,
      NonceStore.empty]
  · by_cases h : v = s ⟨signer, index, AuthorityZERO⟩ <;> simp [h]
  · by_cases h : v = s ⟨signer, index, AuthorityZERO⟩ <;> simp [h]
  · by_cases h : v = s ⟨signer, index, AuthorityZERO⟩ <;> simp [h]
  · simp [NonceStore.write]
  · simp [NonceStore.write]
  · simp [NonceStore.write]
  · simp [NonceStore.write]
  · simp [NonceStore.write]
  · simp [NonceStore.write]

theorem land_lor_self (m c : Nat) : m &&& (c ||| m) = m := by
  apply Nat.eq_of_testBit_eq
  intro i
  simp only [Nat.testBit_and, Nat.testBit_or]
  cases h1 : m.testBit i <;> cases h2 : c.testBit i <;> rfl

/-- C2: Bitflip consumption of a non-zero mask fails with `BitAlreadyUsed`
whenever the mask overlaps the stored bitmap — partial overlap or exact
resubmission of a previously accepted mask alike — the failure is
observable (never a silent success), and the stored bitmap is unchanged.
The last conjunct is the resubmission case: in a store whose bitmap
already has the mask ORed in (the state right after an accepted
consumption of that mask), the same mask fails again. -/
theorem bitflip_overlap_fails (s : NonceStore) (signer index mask : Nat)
    (h1 : mask ≠ 0)
    (h2 : mask &&& s.read ⟨signer, index, AuthorityONE⟩ ≠ 0) :
    (BitflipStrategy.consume s signer index mask).status = some .BitAlreadyUsed
    ∧ (BitflipStrategy.consume s signer index mask).status ≠ none
    ∧ (BitflipStrategy.consume s signer index mask).store = s
    ∧ (BitflipStrategy.consume
        (s.write ⟨signer, index, AuthorityONE⟩
          (s.read ⟨signer, index, AuthorityONE⟩ ||| mask))
        signer index mask).status = some .BitAlreadyUsed := by
  have h2b : mask &&& s ⟨signer, index, AuthorityONE⟩ ≠ 0 := h2
  refine ⟨?_, ?_, ?_, ?_⟩ <;>
    simp only [BitflipStrategy.consume, NonceStore.read, NonceStore.write]
  · simp [h1, h2b]
  · simp [h1, h2b]
  · simp [h1, h2b]
  · have hk : mask &&& (s ⟨signer, index, AuthorityONE⟩ ||| mask) = mask :=
      land_lor_self mask _
    simp [h1, hk]

/-- Witness for C2 at a concrete input: store with bit 0 set at
(signer 7, index 6175, ONE), mask 1. -/
theorem bitflip_overlap_fails_witness :
    ((1 : Nat) ≠ 0
    ∧ (1 : Nat) &&& (NonceStore.empty.write ⟨7, 6175, AuthorityONE⟩ 1).read
        ⟨7, 6175, AuthorityONE⟩ ≠ 0)
    ∧ ((BitflipStrategy.consume (NonceStore.empty.write ⟨7, 6175, AuthorityONE⟩ 1)
        7 6175 1).status = some .BitAlreadyUsed
    ∧ (BitflipStrategy.consume (NonceStore.empty.write ⟨7, 6175, AuthorityONE⟩ 1)
        7 6175 1).status ≠ none
    ∧ (BitflipStrategy.consume (NonceStore.empty.write ⟨7, 6175, AuthorityONE⟩ 1)
        7 6175 1).store = NonceStore.empty.write ⟨7, 6175, AuthorityONE⟩ 1
    ∧ (BitflipStrategy.consume
        ((NonceStore.empty.write ⟨7, 6175, AuthorityONE⟩ 1).write
          ⟨7, 6175, AuthorityONE⟩
          ((NonceStore.empty.write ⟨7, 6175, AuthorityONE⟩ 1).read
            ⟨7, 6175, AuthorityONE⟩ ||| 1))
        7 6175 1).status = some .BitAlreadyUsed) :=
  ⟨⟨by decide, by simp [NonceStore.read, NonceStore.write]⟩,
   bitflip_overlap_fails (NonceStore.empty.write ⟨7, 6175, AuthorityONE⟩ 1)
     7 6175 1 (by decide) (by simp [NonceStore.read, NonceStore.write])⟩

/-- C9: a bitflip mask of 0 is always rejected with `NoBitsToFlip`, for
every signer, index and current store, and the store is unchanged. -/
theorem bitflip_zero_mask_rejected (s : NonceStore) (signer index : Nat) :
    (BitflipStrategy.consume s signer index 0).status = some .NoBitsToFlip
    ∧ (BitflipStrategy.consume s signer index 0).store = s := by
  constructor <;> simp [BitflipStrategy.consume]

/-- Consume queues 0, 1, ..., n-1 once each with submitted nonce 0,
starting from the all-zero store (the MULTINONCE test scenario). -/
def runQueues (signer : Nat) : Nat → NonceStore
  | 0 => NonceStore.empty
  | n + 1 => (MultinonceStrategy.consume (runQueues signer n) signer n 0).store

theorem runQueues_read (signer : Nat) :
    ∀ n q, (runQueues signer n).read ⟨signer, q, AuthorityZERO⟩
      = if q < n then 1 else 0 := by
  intro n
  induction n with
  | zero => intro q; simp [runQueues, NonceStore.empty, NonceStore.read]
  | succ n ih =>
    intro q
    have hn : (runQueues signer n).read ⟨signer, n, AuthorityZERO⟩ = 0 := by
      simp [ih n]
    have hstep : runQueues signer (n + 1)
        = (runQueues signer n).write ⟨signer, n, AuthorityZERO⟩ 1 := by
      show (MultinonceStrategy.consume (runQueues signer n) signer n 0).store = _
      simp [MultinonceStrategy.consume, hn]
    rw [hstep]
    by_cases hq : q = n
    · subst hq
      rw [multinonce_read_write_self]
      simp [Nat.lt_succ_self]
    · have hkey : (⟨signer, q, AuthorityZERO⟩ : NonceStoreKey)
          ≠ ⟨signer, n, AuthorityZERO⟩ := by
        intro hcon
        exact hq (congrArg NonceStoreKey.index hcon)
      rw [multinonce_read_write_other _ _ _ _ hkey, ih q]
      have hiff : q < n ↔ q < n + 1 := by omega
      simp [hiff]

/-- C7: Multinonce queues are fully independent: a consumption on queue
(signer, index) leaves every other slot of the store — other queues of the
same signer, other signers, other authorities — unchanged; and after 50
queues of one signer are each consumed once with nonce 0 from the all-zero
store, every one of those 50 queues holds exactly 1 (and untouched queues
still hold 0). -/
theorem multinonce_queue_independence (s : NonceStore) (signer index v : Nat)
    (k : NonceStoreKey) (h : k ≠ ⟨signer, index, AuthorityZERO⟩) :
    (MultinonceStrategy.consume s signer index v).store.read k = s.read k
    ∧ (∀ q, (runQueues signer 50).read ⟨signer, q, AuthorityZERO⟩
        = if q < 50 then 1 else 0) := by
  constructor
  · simp only [MultinonceStrategy.consume]
    by_cases hv : v = s.read ⟨signer, index, AuthorityZERO⟩
    · simp only [NonceStore.read] at hv
      simp only [NonceStore.read, if_pos hv]
      exact multinonce_read_write_other _ _ _ _ h
    · simp only [NonceStore.read] at hv
      simp [NonceStore.read, hv]
  · exact fun q => runQueues_read signer 50 q

/-- Witness for C7 at a concrete input: consuming queue 2 of signer 1
leaves queue 3 of signer 1 unchanged, and the 50-queue scenario holds. -/
theorem multinonce_queue_independence_witness :
    ((⟨1, 3, AuthorityZERO⟩ : NonceStoreKey) ≠ ⟨1, 2, AuthorityZERO⟩)
    ∧ ((MultinonceStrategy.consume NonceStore.empty 1 2 0).store.read
        ⟨1, 3, AuthorityZERO⟩ = NonceStore.empty.read ⟨1, 3, AuthorityZERO⟩
      ∧ (∀ q, (runQueues 1 50).read ⟨1, q, AuthorityZERO⟩
          = if q < 50 then 1 else 0)) :=
  ⟨by decide,
   multinonce_queue_independence NonceStore.empty 1 2 0 ⟨1, 3, AuthorityZERO⟩
     (by decide)⟩

/-- C4: under the atomicity requirement of spec section 5 each
verification is one indivisible read-check-write transition of the store;
composing the two transitions that both present the currently accepted
multinonce value for the same key (in the only serial order, as the two
operations are identical) yields exactly one success and one
`NonceOutOfOrder` failure, never two successes: the final stored value
shows a single increment. -/
theorem multinonce_two_consumes_one_success (s : NonceStore)
    (signer index : Nat) :
    (MultinonceStrategy.consume s signer index
        (s.read ⟨signer, index, AuthorityZERO⟩)).status = none
    ∧ (MultinonceStrategy.consume
        (MultinonceStrategy.consume s signer index
          (s.read ⟨signer, index, AuthorityZERO⟩)).store
        signer index (s.read ⟨signer, index, AuthorityZERO⟩)).status
        = some .NonceOutOfOrder
    ∧ (MultinonceStrategy.consume
        (MultinonceStrategy.consume s signer index
          (s.read ⟨signer, index, AuthorityZERO⟩)).store
        signer index (s.read ⟨signer, index, AuthorityZERO⟩)).store.read
        ⟨signer, index, AuthorityZERO⟩
        = s.read ⟨signer, index, AuthorityZERO⟩ + 1 := by
  refine ⟨?_, ?_, ?_⟩ <;>
    simp [MultinonceStrategy.consume, NonceStore.read, NonceStore.write]

/-- The decoded replay-protection payload: `abi.decode(replayProtection,
(uint, uint))` — a 256-bit queue/bitmap index and a 256-bit
nonce-or-mask. -/
structure ReplayProtectionPayload where
  index : Nat
  value : Nat
deriving DecidableEq, Repr

/-- The canonical signed message, from `signCall` in the test-suite:
`abi.encode(callData, encodedReplayProtection, replayProtectionAuthority,
verifyingContract, chainId)`. The structure models the tuple whose
encoding is hashed; `abi.encode` of a tuple is injective, so tuple
equality models encoding equality. -/
structure CanonicalMessage where
  callData : List Nat
  replayProtectionPayload : ReplayProtectionPayload
  authority : Nat
  verifyingContract : Nat
  chainId : Nat
deriving DecidableEq, Repr

/-- An idealized signature: the spec treats the signature algorithm as an
opaque sign/recover primitive, so a signature is modelled as the signing
key together with the exact message signed. -/
structure Signature where
  signedBy : Nat
  message : CanonicalMessage
deriving DecidableEq, Repr

/-- Modelled from the spec: the opaque signing primitive
(`signer.signMessage(arrayify(keccak256(encodedMessage)))` in the
test-suite's `signCall`). -/
def signMessage (signer : Nat) (m : CanonicalMessage) : Signature :=
  ⟨signer, m⟩

/-- Modelled from the spec: the opaque recovery primitive (`ECDSA.recover`
over the canonical message hash). Recovery of a signature against the
message it actually signed yields the signing key; against any other
message it yields no usable signer (idealized: no forgery, no hash
collision). -/
def recoverSigner (m : CanonicalMessage) (sig : Signature) : Option Nat :=
  if sig.message = m then some sig.signedBy else none

/-- Modelled from the spec: `verify(callData, replayProtection,
replayProtectionAuthority, signature)` of the missing
`ReplayProtection.sol` (`verifyPublic`). Rebuilds the canonical message,
recovers the signer and fails with `SignerMismatch` ("Not expected
signer") unless it is the claimed signer, then dispatches on the
authority: ZERO selects Multinonce, ONE selects Bitflip, anything else
fails closed with `UnknownAuthority`. On any failure the store is
unchanged. -/
def ReplayProtectionVerifier.verify (s : NonceStore) (callData : List Nat)
    (rp : ReplayProtectionPayload) (authority claimedSigner : Nat)
    (sig : Signature) (verifyingContract chainId : Nat) : VerifyResult :=
  let msg : CanonicalMessage := ⟨callData, rp, authority, verifyingContract, chainId⟩
  if recoverSigner msg sig ≠ some claimedSigner then
    ⟨some .SignerMismatch, s⟩
  else if authority = AuthorityZERO then
    MultinonceStrategy.consume s claimedSigner rp.index rp.value
  else if authority = AuthorityONE then
    BitflipStrategy.consume s claimedSigner rp.index rp.value
  else
    ⟨some .UnknownAuthority, s⟩

theorem multinonce_fail_frame (s : NonceStore) (signer index v : Nat)
    (e : ReplayProtectionError)
    (h : (MultinonceStrategy.consume s signer index v).status = some e) :
    (MultinonceStrategy.consume s signer index v).store = s := by
  by_cases hv : v = s.read ⟨signer, index, AuthorityZERO⟩
  · simp [MultinonceStrategy.consume, hv] at h
  · simp [MultinonceStrategy.consume, hv]

theorem bitflip_fail_frame (s : NonceStore) (signer index mask : Nat)
    (e : ReplayProtectionError)
    (h : (BitflipStrategy.consume s signer index mask).status = some e) :
    (BitflipStrategy.consume s signer index mask).store = s := by
  by_cases hm : mask = 0
  · simp [BitflipStrategy.consume, hm]
  · by_cases ho : mask &&& s.read ⟨signer, index, AuthorityONE⟩ = 0
    · simp [BitflipStrategy.consume, hm, ho] at h
    · simp [BitflipStrategy.consume, hm, ho]

/-- C3: every failing verification — `SignerMismatch`, `NonceOutOfOrder`,
`NoBitsToFlip`, `BitAlreadyUsed` or `UnknownAuthority` — performs no state
mutation: the store after the failed verification equals the store before
it, at every key. -/
theorem verify_failure_no_mutation (s : NonceStore) (callData : List Nat)
    (rp : ReplayProtectionPayload) (authority claimedSigner : Nat)
    (sig : Signature) (verifyingContract chainId : Nat)
    (e : ReplayProtectionError)
    (h : (ReplayProtectionVerifier.verify s callData rp authority claimedSigner
      sig verifyingContract chainId).status = some e) :
    (ReplayProtectionVerifier.verify s callData rp authority claimedSigner
      sig verifyingContract chainId).store = s
    ∧ ∀ k, (ReplayProtectionVerifier.verify s callData rp authority claimedSigner
      sig verifyingContract chainId).store.read k = s.read k := by
  have hstore : (ReplayProtectionVerifier.verify s callData rp authority
      claimedSigner sig verifyingContract chainId).store = s := by
    by_cases hrec : recoverSigner ⟨callData, rp, authority, verifyingContract,
        chainId⟩ sig ≠ some claimedSigner
    · simp [ReplayProtectionVerifier.verify, hrec]
    · by_cases h0 : authority = AuthorityZERO
      · simp only [ReplayProtectionVerifier.verify, if_neg hrec,
          if_pos h0] at h ⊢
        exact multinonce_fail_frame _ _ _ _ _ h
      · by_cases h1 : authority = AuthorityONE
        · simp only [ReplayProtectionVerifier.verify, if_neg hrec,
            if_neg h0, if_pos h1] at h ⊢
          exact bitflip_fail_frame _ _ _ _ _ h
        · simp [ReplayProtectionVerifier.verify, hrec, h0, h1]
  exact ⟨hstore, fun k => by rw [hstore]⟩

/-- Witness for C3 at a concrete input: a correctly signed payload with an
unrecognized authority (5) fails and mutates nothing. -/
theorem verify_failure_no_mutation_witness :
    ((ReplayProtectionVerifier.verify NonceStore.empty [] ⟨0, 0⟩ 5 7
      (signMessage 7 ⟨[], ⟨0, 0⟩, 5, 9, 1⟩) 9 1).status
        = some .UnknownAuthority)
    ∧ ((ReplayProtectionVerifier.verify NonceStore.empty [] ⟨0, 0⟩ 5 7
      (signMessage 7 ⟨[], ⟨0, 0⟩, 5, 9, 1⟩) 9 1).store = NonceStore.empty
    ∧ ∀ k, (ReplayProtectionVerifier.verify NonceStore.empty [] ⟨0, 0⟩ 5 7
      (signMessage 7 ⟨[], ⟨0, 0⟩, 5, 9, 1⟩) 9 1).store.read k
        = NonceStore.empty.read k) :=
  ⟨by simp [ReplayProtectionVerifier.verify, recoverSigner, signMessage,
      AuthorityZERO, AuthorityONE],
   verify_failure_no_mutation NonceStore.empty [] ⟨0, 0⟩ 5 7
     (signMessage 7 ⟨[], ⟨0, 0⟩, 5, 9, 1⟩) 9 1 .UnknownAuthority
     (by simp [ReplayProtectionVerifier.verify, recoverSigner, signMessage,
       AuthorityZERO, AuthorityONE])⟩

/-- C5: the signed message embeds the replay-protection authority, so a
payload signed for authority X and verified against authority Y ≠ X never
succeeds: the recovered signer no longer matches and verification fails
with `SignerMismatch` (the store untouched), whatever signing key the
signature carries and whatever signer is claimed. -/
theorem verify_authority_binding (s : NonceStore) (callData : List Nat)
    (rp : ReplayProtectionPayload)
    (authorityX authorityY claimedSigner signerKey : Nat)
    (verifyingContract chainId : Nat) (h : authorityY ≠ authorityX) :
    (ReplayProtectionVerifier.verify s callData rp authorityY claimedSigner
      (signMessage signerKey ⟨callData, rp, authorityX, verifyingContract, chainId⟩)
      verifyingContract chainId).status = some .SignerMismatch
    ∧ (ReplayProtectionVerifier.verify s callData rp authorityY claimedSigner
      (signMessage signerKey ⟨callData, rp, authorityX, verifyingContract, chainId⟩)
      verifyingContract chainId).status ≠ none
    ∧ (ReplayProtectionVerifier.verify s callData rp authorityY claimedSigner
      (signMessage signerKey ⟨callData, rp, authorityX, verifyingContract, chainId⟩)
      verifyingContract chainId).store = s := by
  have hmsg : (⟨callData, rp, authorityX, verifyingContract, chainId⟩
      : CanonicalMessage)
      ≠ ⟨callData, rp, authorityY, verifyingContract, chainId⟩ := by
    intro hcon
    exact h (congrArg CanonicalMessage.authority hcon).symm
  have hrec : recoverSigner
      ⟨callData, rp, authorityY, verifyingContract, chainId⟩
      (signMessage signerKey
        ⟨callData, rp, authorityX, verifyingContract, chainId⟩) = none := by
    simp [recoverSigner, signMessage, hmsg]
  refine ⟨?_, ?_, ?_⟩ <;>
    simp [ReplayProtectionVerifier.verify, hrec]

/-- Witness for C5 at a concrete input: signed for authority ZERO,
verified against authority ONE (the test-suite's "wrong replay protection
authority" scenario). -/
theorem verify_authority_binding_witness :
    (AuthorityONE ≠ AuthorityZERO)
    ∧ ((ReplayProtectionVerifier.verify NonceStore.empty [] ⟨0, 1⟩ AuthorityONE 7
      (signMessage 7 ⟨[], ⟨0, 1⟩, AuthorityZERO, 9, 1⟩) 9 1).status
        = some .SignerMismatch
    ∧ (ReplayProtectionVerifier.verify NonceStore.empty [] ⟨0, 1⟩ AuthorityONE 7
      (signMessage 7 ⟨[], ⟨0, 1⟩, AuthorityZERO, 9, 1⟩) 9 1).status ≠ none
    ∧ (ReplayProtectionVerifier.verify NonceStore.empty [] ⟨0, 1⟩ AuthorityONE 7
      (signMessage 7 ⟨[], ⟨0, 1⟩, AuthorityZERO, 9, 1⟩) 9 1).store
        = NonceStore.empty) :=
  ⟨by decide,
   verify_authority_binding NonceStore.empty [] ⟨0, 1⟩ AuthorityZERO AuthorityONE
     7 7 9 1 (by decide)⟩

/-- C6: for every authority other than ZERO and ONE, verification fails
closed with `UnknownAuthority` when the payload is correctly signed for
that authority — it never treats the unrecognized authority as a no-op
success or delegates to it — and for every signature whatsoever (valid or
not) it mutates no state. -/
theorem verify_unknown_authority (s : NonceStore) (callData : List Nat)
    (rp : ReplayProtectionPayload) (authority claimedSigner : Nat)
    (verifyingContract chainId : Nat)
    (h0 : authority ≠ AuthorityZERO) (h1 : authority ≠ AuthorityONE) :
    (ReplayProtectionVerifier.verify s callData rp authority claimedSigner
      (signMessage claimedSigner
        ⟨callData, rp, authority, verifyingContract, chainId⟩)
      verifyingContract chainId).status = some .UnknownAuthority
    ∧ (ReplayProtectionVerifier.verify s callData rp authority claimedSigner
      (signMessage claimedSigner
        ⟨callData, rp, authority, verifyingContract, chainId⟩)
      verifyingContract chainId).status ≠ none
    ∧ ∀ sig : Signature,
        (ReplayProtectionVerifier.verify s callData rp authority claimedSigner
          sig verifyingContract chainId).store = s := by
  have hrec : recoverSigner
      ⟨callData, rp, authority, verifyingContract, chainId⟩
      (signMessage claimedSigner
        ⟨callData, rp, authority, verifyingContract, chainId⟩)
      = some claimedSigner := by
    simp [recoverSigner, signMessage]
  refine ⟨?_, ?_, ?_⟩
  · simp [ReplayProtectionVerifier.verify, hrec, h0, h1]
  · simp [ReplayProtectionVerifier.verify, hrec, h0, h1]
  · intro sig
    by_cases hr : recoverSigner
        ⟨callData, rp, authority, verifyingContract, chainId⟩ sig
        ≠ some claimedSigner
    · simp [ReplayProtectionVerifier.verify, hr]
    · simp [ReplayProtectionVerifier.verify, hr, h0, h1]

/-- Witness for C6 at a concrete input: authority 5. -/
theorem verify_unknown_authority_witness :
    ((5 : Nat) ≠ AuthorityZERO ∧ (5 : Nat) ≠ AuthorityONE)
    ∧ ((ReplayProtectionVerifier.verify NonceStore.empty [] ⟨0, 0⟩ 5 7
      (signMessage 7 ⟨[], ⟨0, 0⟩, 5, 9, 1⟩) 9 1).status = some .UnknownAuthority
    ∧ (ReplayProtectionVerifier.verify NonceStore.empty [] ⟨0, 0⟩ 5 7
      (signMessage 7 ⟨[], ⟨0, 0⟩, 5, 9, 1⟩) 9 1).status ≠ none
    ∧ ∀ sig : Signature,
        (ReplayProtectionVerifier.verify NonceStore.empty [] ⟨0, 0⟩ 5 7
          sig 9 1).store = NonceStore.empty) :=
  ⟨⟨by decide, by decide⟩,
   verify_unknown_authority NonceStore.empty [] ⟨0, 0⟩ 5 7 9 1
     (by decide) (by decide)⟩

/-- `abi.encode(_target, _callData)` from `RelayHub.forward`: an injective
pairing of the target address with the call data, which becomes the
`callData` component of the canonical message. -/
def encodeTargetCallData (target : Nat) (callData : List Nat) : List Nat :=
  target :: callData

/-- Outcome of a `RelayHub.forward` transaction: either the whole
transaction reverts (verification failed, all storage rolled back), or it
completes, recording whether a `Revert(reason)` event was emitted for a
failed target call. -/
inductive ForwardOutcome where
  | reverted (e : ReplayProtectionError)
  | completed (revertEventEmitted : Bool)
deriving DecidableEq, Repr

/-- Result of `RelayHub.forward`: the outcome plus the store the
transaction leaves behind. -/
structure ForwardResult where
  outcome : ForwardOutcome
  store : NonceStore

/-- `RelayHub.forward` (Solidity source in `src/ts/batch/MultiSend.ts`,
lines 70-96): `require(_signer == verify(abi.encode(_target, _callData),
_replayProtection, _replayProtectionAuthority, _signature), ...)` reverts
the whole transaction on any verification failure; on success the target
is called with `_target.call(...)`, whose success is an external fact
modelled by `targetCallSucceeds`; if the call fails, forward emits
`Revert(reason)` and returns normally, keeping the storage mutation the
verification made. -/
def RelayHub.forward (s : NonceStore) (target : Nat) (callData : List Nat)
    (rp : ReplayProtectionPayload) (authority signer : Nat) (sig : Signature)
    (verifyingContract chainId : Nat) (targetCallSucceeds : Bool) :
    ForwardResult :=
  let r := ReplayProtectionVerifier.verify s (encodeTargetCallData target callData)
    rp authority signer sig verifyingContract chainId
  match r.status with
  | some e => ⟨.reverted e, s⟩
  | none => ⟨.completed (!targetCallSucceeds), r.store⟩

/-- C10: when verification succeeds but the target call fails,
`RelayHub.forward` does not revert: it completes with a `Revert` event
emitted, and the store it leaves behind is the post-verification store —
the replay protection stays consumed even though the target call did not
take effect. -/
theorem forward_target_call_failure (s : NonceStore) (target : Nat)
    (callData : List Nat) (rp : ReplayProtectionPayload)
    (authority signer : Nat) (sig : Signature)
    (verifyingContract chainId : Nat)
    (h : (ReplayProtectionVerifier.verify s (encodeTargetCallData target callData)
      rp authority signer sig verifyingContract chainId).status = none) :
    (RelayHub.forward s target callData rp authority signer sig
      verifyingContract chainId false).outcome = .completed true
    ∧ (RelayHub.forward s target callData rp authority signer sig
      verifyingContract chainId false).store
      = (ReplayProtectionVerifier.verify s (encodeTargetCallData target callData)
        rp authority signer sig verifyingContract chainId).store
    ∧ ∀ e, (RelayHub.forward s target callData rp authority signer sig
        verifyingContract chainId false).outcome ≠ .reverted e := by
  refine ⟨?_, ?_, ?_⟩ <;> simp [RelayHub.forward, h]

/-- Witness for C10 at a concrete input: signer 7 consumes multinonce
queue 0 nonce 0 via a correctly signed forward whose target call fails;
the store keeps the consumed nonce (slot value 1). -/
theorem forward_target_call_failure_witness :
    ((ReplayProtectionVerifier.verify NonceStore.empty
      (encodeTargetCallData 5 []) ⟨0, 0⟩ AuthorityZERO 7
      (signMessage 7 ⟨encodeTargetCallData 5 [], ⟨0, 0⟩, AuthorityZERO, 9, 1⟩)
      9 1).status = none)
    ∧ ((RelayHub.forward NonceStore.empty 5 [] ⟨0, 0⟩ AuthorityZERO 7
      (signMessage 7 ⟨encodeTargetCallData 5 [], ⟨0, 0⟩, AuthorityZERO, 9, 1⟩)
      9 1 false).outcome = .completed true
    ∧ (RelayHub.forward NonceStore.empty 5 [] ⟨0, 0⟩ AuthorityZERO 7
      (signMessage 7 ⟨encodeTargetCallData 5 [], ⟨0, 0⟩, AuthorityZERO, 9, 1⟩)
      9 1 false).store
      = (ReplayProtectionVerifier.verify NonceStore.empty
        (encodeTargetCallData 5 []) ⟨0, 0⟩ AuthorityZERO 7
        (signMessage 7 ⟨encodeTargetCallData 5 [], ⟨0, 0⟩, AuthorityZERO, 9, 1⟩)
        9 1).store
    ∧ ∀ e, (RelayHub.forward NonceStore.empty 5 [] ⟨0, 0⟩ AuthorityZERO 7
        (signMessage 7 ⟨encodeTargetCallData 5 [], ⟨0, 0⟩, AuthorityZERO, 9, 1⟩)
        9 1 false).outcome ≠ .reverted e) :=
  ⟨by simp [ReplayProtectionVerifier.verify, recoverSigner, signMessage,
      MultinonceStrategy.consume, NonceStore.read, NonceStore.empty,
      AuthorityZERO, AuthorityONE],
   forward_target_call_failure NonceStore.empty 5 [] ⟨0, 0⟩ AuthorityZERO 7
     (signMessage 7 ⟨encodeTargetCallData 5 [], ⟨0, 0⟩, AuthorityZERO, 9, 1⟩)
     9 1
     (by simp [ReplayProtectionVerifier.verify, recoverSigner, signMessage,
       MultinonceStrategy.consume, NonceStore.read, NonceStore.empty,
       AuthorityZERO, AuthorityONE])⟩

/-- Flip a list of masks in order on one (signer, index) bitmap, keeping
whatever store each consumption leaves (failed flips leave it unchanged). -/
def runFlips (signer index : Nat) : NonceStore → List Nat → NonceStore
  | s, [] => s
  | s, m :: rest =>
    runFlips signer index ((BitflipStrategy.consume s signer index m).store) rest

/-- True when every flip in the list is accepted, each applied to the
store the previous ones produced. -/
def allAccepted (signer index : Nat) : NonceStore → List Nat → Bool
  | _, [] => true
  | s, m :: rest =>
    (BitflipStrategy.consume s signer index m).status.isNone
      && allAccepted signer index
          ((BitflipStrategy.consume s signer index m).store) rest

theorem runFlips_invariant (signer index : Nat) :
    ∀ (masks : List Nat) (s : NonceStore),
      (∀ m ∈ masks, m ≠ 0) →
      List.Pairwise (fun a b => a &&& b = 0) masks →
      (∀ m ∈ masks, m &&& s.read ⟨signer, index, AuthorityONE⟩ = 0) →
      allAccepted signer index s masks = true
      ∧ (runFlips signer index s masks).read ⟨signer, index, AuthorityONE⟩
        = s.read ⟨signer, index, AuthorityONE⟩
          ||| masks.foldr (fun a b => a ||| b) 0 := by
  intro masks
  induction masks with
  | nil =>
    intro s _ _ _
    simp [allAccepted, runFlips]
  | cons m rest ih =>
    intro s hnz hdisj hfree
    have hm0 : m ≠ 0 := hnz m (List.mem_cons_self m rest)
    have hmfree : m &&& s.read ⟨signer, index, AuthorityONE⟩ = 0 :=
      hfree m (List.mem_cons_self m rest)
    have hmfree2 : m &&& s ⟨signer, index, AuthorityONE⟩ = 0 := hmfree
    have hstep : BitflipStrategy.consume s signer index m
        = ⟨none, s.write ⟨signer, index, AuthorityONE⟩
            (s.read ⟨signer, index, AuthorityONE⟩ ||| m)⟩ := by
      simp [BitflipStrategy.consume, hm0, hmfree2, NonceStore.read]
    have hread : ((BitflipStrategy.consume s signer index m).store).read
        ⟨signer, index, AuthorityONE⟩
        = s.read ⟨signer, index, AuthorityONE⟩ ||| m := by
      rw [hstep]
      exact multinonce_read_write_self _ _ _
    have hrest := ih ((BitflipStrategy.consume s signer index m).store)
      (fun m2 hm2 => hnz m2 (List.mem_cons_of_mem m hm2))
      (List.pairwise_cons.mp hdisj).2
      (by
        intro m2 hm2
        rw [hread, Nat.and_or_distrib_left,
          hfree m2 (List.mem_cons_of_mem m hm2)]
        have hpair : m &&& m2 = 0 :=
          (List.pairwise_cons.mp hdisj).1 m2 hm2
        rw [Nat.and_comm m2 m, hpair]
        exact Nat.zero_or 0)
    constructor
    · simp only [allAccepted, hrest.1, Bool.and_true]
      rw [hstep]
      rfl
    · simp only [runFlips, List.foldr]
      rw [hrest.2, hread, Nat.or_assoc]

theorem foldr_lor_of_perm {l l2 : List Nat} (h : l.Perm l2) :
    l.foldr (fun a b => a ||| b) 0 = l2.foldr (fun a b => a ||| b) 0 := by
  induction h with
  | nil => rfl
  | cons x _ ih => simp only [List.foldr, ih]
  | swap x y l =>
    simp only [List.foldr]
    rw [← Nat.or_assoc, ← Nat.or_assoc, Nat.or_comm y x]
  | trans _ _ ih1 ih2 => exact ih1.trans ih2

theorem land_comm_zero {a b : Nat} (hab : a &&& b = 0) : b &&& a = 0 := by
  rw [Nat.and_comm]
  exact hab

/-- C8: bitflip accumulation is order-independent: starting from a zero
bitmap, flipping a list of pairwise-disjoint non-zero masks accepts every
flip and leaves the stored value equal to the bitwise OR of the masks, and
any reordering of the list leaves the same stored value. -/
theorem bitflip_accumulation (signer index : Nat) (masks : List Nat)
    (hnz : ∀ m ∈ masks, m ≠ 0)
    (hdisj : List.Pairwise (fun a b => a &&& b = 0) masks) :
    allAccepted signer index NonceStore.empty masks = true
    ∧ (runFlips signer index NonceStore.empty masks).read
        ⟨signer, index, AuthorityONE⟩
      = masks.foldr (fun a b => a ||| b) 0
    ∧ ∀ masks2 : List Nat, masks2.Perm masks →
        (runFlips signer index NonceStore.empty masks2).read
          ⟨signer, index, AuthorityONE⟩
        = (runFlips signer index NonceStore.empty masks).read
          ⟨signer, index, AuthorityONE⟩ := by
  have hzero : ∀ m ∈ masks, m &&& NonceStore.empty.read
      ⟨signer, index, AuthorityONE⟩ = 0 := by
    intro m _
    simp [NonceStore.empty, NonceStore.read]
  have hmain := runFlips_invariant signer index masks NonceStore.empty
    hnz hdisj hzero
  have hbase : NonceStore.empty.read ⟨signer, index, AuthorityONE⟩ = 0 := rfl
  refine ⟨hmain.1, ?_, ?_⟩
  · rw [hmain.2, hbase, Nat.zero_or]
  · intro masks2 hperm
    have hnz2 : ∀ m ∈ masks2, m ≠ 0 := fun m hm => hnz m (hperm.mem_iff.mp hm)
    have hdisj2 : List.Pairwise (fun a b => a &&& b = 0) masks2 :=
      (hperm.pairwise_iff (fun hab => land_comm_zero hab)).mpr hdisj
    have hzero2 : ∀ m ∈ masks2, m &&& NonceStore.empty.read
        ⟨signer, index, AuthorityONE⟩ = 0 := by
      intro m _
      simp [NonceStore.empty, NonceStore.read]
    have hmain2 := runFlips_invariant signer index masks2 NonceStore.empty
      hnz2 hdisj2 hzero2
    rw [hmain2.2, hmain.2, hbase, Nat.zero_or, Nat.zero_or,
      foldr_lor_of_perm hperm]

theorem two_pow_land_two_pow {i j : Nat} (h : i ≠ j) :
    (2 ^ i : Nat) &&& 2 ^ j = 0 := by
  apply Nat.eq_of_testBit_eq
  intro k
  simp only [Nat.testBit_and, Nat.zero_testBit, Nat.testBit_two_pow]
  by_cases hik : i = k
  · subst hik
    have hji : ¬j = i := fun hcon => h hcon.symm
    simp [hji]
  · simp [hik]

/-- Witness for C8 at the spec's concrete input: single-bit masks for
bits 0, 10 and 200 on one index. -/
theorem bitflip_accumulation_witness :
    ((∀ m ∈ [2 ^ 0, 2 ^ 10, 2 ^ 200], m ≠ (0 : Nat))
    ∧ List.Pairwise (fun a b : Nat => a &&& b = 0) [2 ^ 0, 2 ^ 10, 2 ^ 200])
    ∧ (allAccepted 7 6175 NonceStore.empty [2 ^ 0, 2 ^ 10, 2 ^ 200] = true
    ∧ (runFlips 7 6175 NonceStore.empty [2 ^ 0, 2 ^ 10, 2 ^ 200]).read
        ⟨7, 6175, AuthorityONE⟩
      = [(2 : Nat) ^ 0, 2 ^ 10, 2 ^ 200].foldr (fun a b => a ||| b) 0
    ∧ ∀ masks2 : List Nat, masks2.Perm [2 ^ 0, 2 ^ 10, 2 ^ 200] →
        (runFlips 7 6175 NonceStore.empty masks2).read ⟨7, 6175, AuthorityONE⟩
        = (runFlips 7 6175 NonceStore.empty [2 ^ 0, 2 ^ 10, 2 ^ 200]).read
          ⟨7, 6175, AuthorityONE⟩) := by
  have hnz : ∀ m ∈ [(2 : Nat) ^ 0, 2 ^ 10, 2 ^ 200], m ≠ (0 : Nat) := by
    intro m hm
    rcases List.mem_cons.mp hm with h1 | hm
    · rw [h1]; exact by positivity
    rcases List.mem_cons.mp hm with h1 | hm
    · rw [h1]; exact by positivity
    rcases List.mem_cons.mp hm with h1 | hm
    · rw [h1]; exact by positivity
    · exact absurd hm (List.not_mem_nil m)
  have hdisj : List.Pairwise (fun a b : Nat => a &&& b = 0)
      [2 ^ 0, 2 ^ 10, 2 ^ 200] := by
    refine List.pairwise_cons.mpr ⟨?_, List.pairwise_cons.mpr ⟨?_, ?_⟩⟩
    · intro b hb
      rcases List.mem_cons.mp hb with h1 | hb
      · rw [h1]; exact two_pow_land_two_pow (by decide)
      rcases List.mem_cons.mp hb with h1 | hb
      · rw [h1]; exact two_pow_land_two_pow (by decide)
      · exact absurd hb (List.not_mem_nil b)
    · intro b hb
      rcases List.mem_cons.mp hb with h1 | hb
      · rw [h1]; exact two_pow_land_two_pow (by decide)
      · exact absurd hb (List.not_mem_nil b)
    · exact List.pairwise_singleton _ _
  exact ⟨⟨hnz, hdisj⟩, bitflip_accumulation 7 6175 [2 ^ 0, 2 ^ 10, 2 ^ 200]
    hnz hdisj⟩
